import Mathlib

set_option maxRecDepth 1000000
set_option maxHeartbeats 16000000

/-!
A shallow embedding of the chess engine in `src/chess` (board.rs, pieces.rs,
moves.rs, game.rs) of the `chess-rs` repository, together with theorems about
its behaviour.  Rust `u8` coordinates are modelled as `Nat` with explicit
wrap-around (`% 256`) where the source can underflow/overflow; `HashMap<Square,
Piece>` is modelled as a list of pieces keyed by their `location` field
(`set_piece` always inserts at key `piece.location`, and every consumer of the
map is insensitive to iteration order); `Vec` history is modelled as a list
with the most recent state first (`push`/`pop` act on that end).
-/

namespace ChessRs

/-- `x as u8` for an `i8`/intermediate value: wrap into `[0, 256)`. -/
def wrap8 (x : Int) : Nat := (x % 256).toNat

/-- `Square` (board.rs): integer file and rank, each a `u8`. -/
structure Square where
  fileNumber : Nat
  rankNumber : Nat
deriving DecidableEq, Repr

/-- `Square::is_valid`: both coordinates in `[1, 8]`. -/
def Square.isValid (s : Square) : Bool :=
  1 ≤ s.fileNumber && s.fileNumber ≤ 8 && 1 ≤ s.rankNumber && s.rankNumber ≤ 8

/-- `Square::get_relative`: offset by `(file_relative, rank_relative)`; the
source computes `((coord as i8) + delta) as u8`, which wraps modulo 256 for
the coordinate ranges that occur (all coordinates in play are at most 8, far
from `i8` overflow). -/
def Square.getRelative (s : Square) (fileRelative rankRelative : Int) : Square :=
  ⟨wrap8 ((s.fileNumber : Int) + fileRelative), wrap8 ((s.rankNumber : Int) + rankRelative)⟩

/-- Fuel-driven unfolding of the `Square::get_relatives_until_invalid` loop.
The Rust loop always terminates in fewer than 256 iterations (stepping a `u8`
coordinate repeatedly by a fixed nonzero delta leaves the window `[1,8]`
within one period of the mod-256 cycle), so fuel 256 is never the reason the
recursion stops. -/
def getRelativesAux (cur : Square) (fileRelative rankRelative : Int) : Nat → List Square
  | 0 => []
  | fuel + 1 =>
    let next := cur.getRelative fileRelative rankRelative
    if next.isValid then next :: getRelativesAux next fileRelative rankRelative fuel else []

/-- `Square::get_relatives_until_invalid`: repeatedly step by the delta,
collecting squares, stopping before the first invalid one.  (The source
`assert!(file_relative != 0 || rank_relative != 0)` is a programmer-error
guard; every call site in the repository satisfies it.) -/
def Square.getRelativesUntilInvalid (s : Square) (fileRelative rankRelative : Int) : List Square :=
  getRelativesAux s fileRelative rankRelative 256

/-- The `while let Some(element) = path.pop()` loop of `find_path_to`,
expressed on the reversed list: drop popped elements until (and including)
the first occurrence of `other`. -/
def popUntilFound (other : Square) : List Square → List Square
  | [] => []
  | x :: rest => if x = other then rest else popUntilFound other rest

/-- `i8` sign reduction used by `find_path_to`: `c / c.abs()` for nonzero `c`,
else `0`. -/
def reduceChange (c : Int) : Int := if c = 0 then 0 else c / (c.natAbs : Int)

/-- `Square::find_path_to` (board.rs, lines 84-108), translated exactly:
note that the guard compares the *reduced* changes (each of absolute value 1
when nonzero), so the `return None` branch is in fact unreachable. -/
def Square.findPathTo (s other : Square) : Option (List Square) :=
  if other = s then some [] else
  let fileChange : Int := (other.fileNumber : Int) - (s.fileNumber : Int)
  let rankChange : Int := (other.rankNumber : Int) - (s.rankNumber : Int)
  let fileChangeReduced := reduceChange fileChange
  let rankChangeReduced := reduceChange rankChange
  if fileChange ≠ 0 ∧ rankChange ≠ 0 ∧ fileChangeReduced.natAbs ≠ rankChangeReduced.natAbs then
    none
  else
    let path := s.getRelativesUntilInvalid fileChangeReduced rankChangeReduced
    some ((popUntilFound other path.reverse).reverse)

/-- `Square::get_unique_index`. -/
def Square.getUniqueIndex (s : Square) : Nat :=
  (s.rankNumber - 1) * 8 + (s.fileNumber - 1)

/-- `Color` (board.rs). -/
inductive Color where
  | white
  | black
deriving DecidableEq, Repr

/-- `Color::get_opposite`. -/
def Color.getOpposite : Color → Color
  | .white => .black
  | .black => .white

/-- `Type` (pieces.rs); renamed because `Type` is a Lean universe keyword. -/
inductive PieceType where
  | king
  | queen
  | rook
  | bishop
  | knight
  | pawn
deriving DecidableEq, Repr

/-- `Extra` (moves.rs). -/
inductive Extra where
  | promotion (t : PieceType)
  | moveCheck
  | none
deriving DecidableEq, Repr

/-- `NewMove` (moves.rs); fields `from`/`to` renamed (Lean keywords). -/
structure NewMove where
  fromSq : Square
  toSq : Square
  extra : Extra
deriving DecidableEq, Repr

/-- `HistoryMove` (moves.rs); fields `from`/`to` renamed (Lean keywords). -/
structure HistoryMove where
  pieceColor : Color
  pieceType : PieceType
  fromSq : Square
  toSq : Square
  capture : Bool
  extra : Extra
deriving DecidableEq, Repr

/-- `MoveFailureReason` (moves.rs). -/
inductive MoveFailureReason where
  | noPiece
  | moveInvalid
  | cannotCaptureOwnPiece
  | notYourPiece
  | illegalPieceMove
  | inCheckAfterTurn
  | noPreviousPositions
  | gameEnded
deriving DecidableEq, Repr

/-- `Piece` (pieces.rs): location, color, type, and the cached candidate-move
list `valid_moves`. -/
structure Piece where
  location : Square
  color : Color
  pieceType : PieceType
  validMoves : List Square
deriving DecidableEq, Repr

/-- `Piece` `PartialEq` (pieces.rs): compares location, color and type only —
the candidate-move cache is not part of identity. -/
def pieceEq (a b : Piece) : Bool :=
  a.location = b.location && a.color = b.color && a.pieceType = b.pieceType

/-- `Piece::get_advance_direction`. -/
def Piece.getAdvanceDirection (p : Piece) : Int :=
  if p.color = Color.white then 1 else -1

/-- `PawnMoveController::recalculate_valid_moves`: the squares pushed into the
candidate list (before the validity filter of `Piece::recalculate_valid_moves`). -/
def pawnCandidates (p : Piece) : List Square :=
  let d := p.getAdvanceDirection
  [p.location.getRelative 0 d, p.location.getRelative 1 d, p.location.getRelative (-1) d] ++
    (if (p.location.rankNumber = 2 ∧ p.color = Color.white) ∨
        (p.location.rankNumber = 7 ∧ p.color = Color.black) then
      [p.location.getRelative 0 (d * 2)]
    else [])

/-- `RookMoveController::recalculate_valid_moves`. -/
def rookCandidates (p : Piece) : List Square :=
  p.location.getRelativesUntilInvalid (-1) 0 ++ p.location.getRelativesUntilInvalid 1 0 ++
    p.location.getRelativesUntilInvalid 0 1 ++ p.location.getRelativesUntilInvalid 0 (-1)

/-- `KnightMoveController::recalculate_valid_moves`. -/
def knightCandidates (p : Piece) : List Square :=
  [p.location.getRelative 1 2, p.location.getRelative (-1) 2,
   p.location.getRelative 1 (-2), p.location.getRelative (-1) (-2),
   p.location.getRelative 2 1, p.location.getRelative (-2) 1,
   p.location.getRelative 2 (-1), p.location.getRelative (-2) (-1)]

/-- `BishopMoveController::recalculate_valid_moves`. -/
def bishopCandidates (p : Piece) : List Square :=
  p.location.getRelativesUntilInvalid (-1) (-1) ++ p.location.getRelativesUntilInvalid 1 (-1) ++
    p.location.getRelativesUntilInvalid (-1) 1 ++ p.location.getRelativesUntilInvalid 1 1

/-- `QueenMoveController::recalculate_valid_moves`, translated exactly: the
source pushes the `(-1, -1)` ray twice and never pushes the `(1, 1)` ray. -/
def queenCandidates (p : Piece) : List Square :=
  p.location.getRelativesUntilInvalid (-1) 0 ++ p.location.getRelativesUntilInvalid 1 0 ++
    p.location.getRelativesUntilInvalid 0 1 ++ p.location.getRelativesUntilInvalid 0 (-1) ++
    p.location.getRelativesUntilInvalid (-1) (-1) ++ p.location.getRelativesUntilInvalid 1 (-1) ++
    p.location.getRelativesUntilInvalid (-1) 1 ++ p.location.getRelativesUntilInvalid (-1) (-1)

/-- `KingMoveController::recalculate_valid_moves`: the eight single-step
offsets (note: no two-file castling squares are ever pushed). -/
def kingCandidates (p : Piece) : List Square :=
  [p.location.getRelative (-1) (-1), p.location.getRelative (-1) 0, p.location.getRelative (-1) 1,
   p.location.getRelative 0 (-1), p.location.getRelative 0 1,
   p.location.getRelative 1 (-1), p.location.getRelative 1 0, p.location.getRelative 1 1]

/-- The per-type `recalculate_valid_moves` dispatch of `Piece::get_move_controller`. -/
def candidatesFor (p : Piece) : List Square :=
  match p.pieceType with
  | .king => kingCandidates p
  | .queen => queenCandidates p
  | .rook => rookCandidates p
  | .bishop => bishopCandidates p
  | .knight => knightCandidates p
  | .pawn => pawnCandidates p

/-- `Piece::recalculate_valid_moves`: clear the cache, run the controller,
retain only valid squares. -/
def Piece.recalculateValidMoves (p : Piece) : Piece :=
  { p with validMoves := (candidatesFor { p with validMoves := [] }).filter (·.isValid) }

/-- `Piece::new`: construct and immediately recalculate the candidate cache. -/
def Piece.new (location : Square) (color : Color) (pieceType : PieceType) : Piece :=
  Piece.recalculateValidMoves ⟨location, color, pieceType, []⟩

/-- `CastlingRights` (board.rs). -/
structure CastlingRights where
  shortCastle : Bool
  longCastle : Bool
deriving DecidableEq, Repr

/-- `BoardState` (board.rs).  The `HashMap<Square, Piece>` is modelled as the
list of its pieces: `set_piece` always inserts at key `piece.location`, so
keys are recoverable from values, and no consumer depends on hash-map
iteration order. -/
structure BoardState where
  whiteCastlingRights : CastlingRights
  blackCastlingRights : CastlingRights
  enPassantSquare : Option Square
  pieces : List Piece
deriving DecidableEq, Repr

/-- `BoardState::get_castling_rights_for`. -/
def BoardState.getCastlingRightsFor (s : BoardState) (color : Color) : CastlingRights :=
  match color with
  | .white => s.whiteCastlingRights
  | .black => s.blackCastlingRights

/-- `HashMap::get(&location)`: look up the piece stored at a square. -/
def BoardState.findPieceAt (s : BoardState) (location : Square) : Option Piece :=
  s.pieces.find? (fun p => p.location = location)

/-- `BoardState` `PartialEq` (board.rs): rights, en-passant target, map size,
and for every piece an equal piece (by `pieceEq`, cache excluded) at the same
location in the other state. -/
def boardStateEq (a b : BoardState) : Bool :=
  a.whiteCastlingRights = b.whiteCastlingRights &&
    a.blackCastlingRights = b.blackCastlingRights &&
    a.enPassantSquare = b.enPassantSquare &&
    a.pieces.length = b.pieces.length &&
    a.pieces.all (fun thisPiece =>
      match b.findPieceAt thisPiece.location with
      | some otherPiece => pieceEq otherPiece thisPiece
      | none => false)

/-- `BoardState::hash_castling_rights`. -/
def hashCastlingRights (rights : CastlingRights) : Nat :=
  (if rights.shortCastle then 1 else 0) + (if rights.longCastle then 2 else 0)

/-- The byte stream written by `impl Hash for BoardState` (board.rs, lines
198-227): packed castling rights, en-passant index or the sentinel 64, then
for each of the 64 squares in file/rank order the coordinates and, when
occupied, a piece-type tag and a color tag. -/
def stateHashBytes (s : BoardState) : List Nat :=
  [hashCastlingRights s.whiteCastlingRights, hashCastlingRights s.blackCastlingRights,
   (s.enPassantSquare.map Square.getUniqueIndex).getD 64] ++
  (List.range 8).flatMap (fun fi =>
    (List.range 8).flatMap (fun ri =>
      let file := fi + 1
      let rank := ri + 1
      [file, rank] ++
        match s.findPieceAt ⟨file, rank⟩ with
        | some piece =>
          [match piece.pieceType with
           | .king => 1 | .queen => 2 | .rook => 3 | .bishop => 4 | .knight => 5 | .pawn => 6,
           match piece.color with | .white => 1 | .black => 2]
        | none => []))

/-- Modelled from the spec: the finishing step of Rust's
`std::collections::hash_map::DefaultHasher` (SipHash-1-3), which is standard
library code and not part of this repository.  Per §4.3 of the specification
the position hash need only be a deterministic pure function of the written
byte stream, which any concrete fold satisfies. -/
def defaultHasherFinish (bytes : List Nat) : Nat :=
  bytes.foldl (fun h b => (h * 1099511628211 + b) % (2 ^ 64)) 14695981039346656037

/-- `BoardState::get_hash`: hash the written byte stream. -/
def BoardState.getHash (s : BoardState) : Nat :=
  defaultHasherFinish (stateHashBytes s)

/-- `Board` (board.rs): a `BoardState` plus highlighted squares and the last
applied move. -/
structure Board where
  highlightedSquares : List Square
  state : BoardState
  lastMove : Option HistoryMove
deriving DecidableEq, Repr

/-- `Board::get_piece`. -/
def Board.getPiece (b : Board) (location : Square) : Option Piece :=
  b.state.findPieceAt location

/-- `Board::set_piece`: `HashMap::insert(piece.location, piece)` — replace any
piece stored at that key. -/
def Board.setPiece (b : Board) (piece : Piece) : Board :=
  { b with state := { b.state with
      pieces := piece :: b.state.pieces.filter (fun q => ¬(q.location = piece.location)) } }

/-- `Board::remove_piece`. -/
def Board.removePiece (b : Board) (location : Square) : Board :=
  { b with state := { b.state with
      pieces := b.state.pieces.filter (fun q => ¬(q.location = location)) } }

/-- `Board::is_path_clear`. -/
def Board.isPathClear (b : Board) (path : List Square) : Bool :=
  path.all (fun square => (b.getPiece square).isNone)

/-- `PawnMoveController::check_if_move_valid`, final promotion-rank guard. -/
def pawnPromotionGuard (m : NewMove) : Bool :=
  if m.toSq.rankNumber = 1 ∨ m.toSq.rankNumber = 8 then
    match m.extra with
    | Extra.moveCheck => true
    | Extra.promotion _ => true
    | Extra.none => false
  else true

/-- `PawnMoveController::check_if_move_valid` (pieces.rs, lines 109-176).
Note that the straight-advance branch checks only the destination square for
occupancy — the square skipped by a two-square advance is never examined. -/
def pawnCheckIfMoveValid (b : Board) (piece : Piece) (m : NewMove) : Bool :=
  let advanceDirection := piece.getAdvanceDirection
  let destinationRank := wrap8 ((piece.location.rankNumber : Int) + advanceDirection)
  let firstMoveDestinationRank := wrap8 ((piece.location.rankNumber : Int) + advanceDirection * 2)
  let branchOk : Bool :=
    if piece.location.fileNumber = m.toSq.fileNumber then
      -- Move forward
      (if destinationRank ≠ m.toSq.rankNumber then
        -- Not a +1 move, maybe it is a first move?
        (if piece.location.rankNumber = 2 ∨ piece.location.rankNumber = 7 then
          firstMoveDestinationRank = m.toSq.rankNumber
        else false)
      else true) &&
      -- Pawns cannot capture forward
      (b.getPiece m.toSq).isNone
    else if piece.location.fileNumber = wrap8 ((m.toSq.fileNumber : Int) - 1) ∨
            piece.location.fileNumber = wrap8 ((m.toSq.fileNumber : Int) + 1) then
      -- Capture diagonally: can only move 1 when capturing
      if destinationRank ≠ m.toSq.rankNumber then false
      else
        let capturePiece :=
          match b.state.enPassantSquare with
          | some enPassantSquare =>
            if enPassantSquare = m.toSq then
              -- En passant capture
              b.getPiece ⟨m.toSq.fileNumber, piece.location.rankNumber⟩
            else b.getPiece m.toSq
          | none => b.getPiece m.toSq
        match capturePiece with
        | some capturedPiece => ¬(capturedPiece.color = piece.color)
        | none => false
    else false
  branchOk && pawnPromotionGuard m

/-- `check_if_move_valid` shared by `RookMoveController`, `BishopMoveController`
and `QueenMoveController`: the path to the destination must be clear.  The
source calls `.unwrap()` on `find_path_to`; `find_path_to` never actually
returns `None` (its misalignment guard is unsatisfiable), so the `none`
branch here is unreachable. -/
def slidingCheckIfMoveValid (b : Board) (piece : Piece) (m : NewMove) : Bool :=
  match piece.location.findPathTo m.toSq with
  | some path => b.isPathClear path
  | none => false

/-- `KingMoveController::validate_can_castle` (pieces.rs, lines 391-409).
The source compares `king.location.to_string()` against `"E1"`/`"E8"`; the
display string equals `"E1"` exactly when the square is (file 5, rank 1), and
`"E8"` exactly when it is (file 5, rank 8). -/
def validateCanCastle (b : Board) (king : Piece) (rookLocation : Square) : Bool :=
  if (king.color = Color.white ∧ ¬(king.location = ⟨5, 1⟩)) ∨
     (king.color = Color.black ∧ ¬(king.location = ⟨5, 8⟩)) then false
  else
    match b.getPiece rookLocation with
    | some rook =>
      if ¬(rook.color = king.color) ∨ ¬(rook.pieceType = PieceType.rook) then false
      else
        match king.location.findPathTo rookLocation with
        | some path => b.isPathClear path
        | none => false
    | none => false

/-!
`Board::is_attacked`, `Piece::is_move_valid` and the per-type
`check_if_move_valid` dispatch are mutually recursive in the source (castling
validation calls `is_attacked`, which calls `is_move_valid`).  The Rust
recursion terminates because recalculated king caches contain only single-step
candidates, so the nested `is_move_valid` calls never re-enter the castling
branch; the embedding makes this explicit with a fuel parameter that every
nested call decrements.  The wrappers below supply fuel 64, far more than the
depth any call on recalculated caches can consume.
-/

mutual

/-- `Board::is_attacked` (board.rs, lines 331-359): some piece (of the
required color, when one is given) has the square as a cached candidate and
validates a `MoveCheck` probe to it. -/
def isAttackedF (fuel : Nat) (b : Board) (square : Square) (color : Option Color) : Bool :=
  match fuel with
  | 0 => false
  | fuel + 1 =>
    b.state.pieces.any (fun piece =>
      (match color with
       | some requiredColor => requiredColor = piece.color
       | none => true) &&
      piece.validMoves.any (fun validMove =>
        validMove = square &&
          isMoveValidF fuel b piece { fromSq := piece.location, toSq := validMove, extra := Extra.moveCheck }))

/-- `Piece::is_move_valid` (pieces.rs, lines 63-73): destination valid, in
the candidate cache, and accepted by the type's controller. -/
def isMoveValidF (fuel : Nat) (b : Board) (p : Piece) (m : NewMove) : Bool :=
  match fuel with
  | 0 => false
  | fuel + 1 =>
    m.toSq.isValid && p.validMoves.any (fun validMove => validMove = m.toSq) &&
      checkIfMoveValidF fuel b p m

/-- The `check_if_move_valid` dispatch of `Piece::get_move_controller`.
`KingMoveController::check_if_move_valid` (pieces.rs, lines 321-331) routes a
two-file step toward the a-file (`file - 2`, `u8` wrap-around) to
`can_castle_short` and a step toward the h-file (`file + 2`) to
`can_castle_long`. -/
def checkIfMoveValidF (fuel : Nat) (b : Board) (piece : Piece) (m : NewMove) : Bool :=
  match fuel with
  | 0 => false
  | fuel + 1 =>
    match piece.pieceType with
    | .pawn => pawnCheckIfMoveValid b piece m
    | .rook => slidingCheckIfMoveValid b piece m
    | .bishop => slidingCheckIfMoveValid b piece m
    | .queen => slidingCheckIfMoveValid b piece m
    | .knight => true
    | .king =>
      if m.toSq.fileNumber = wrap8 ((piece.location.fileNumber : Int) - 2) then
        canCastleShortF fuel b piece
      else if m.toSq.fileNumber = wrap8 ((piece.location.fileNumber : Int) + 2) then
        canCastleLongF fuel b piece
      else true

/-- `KingMoveController::can_castle_short` (pieces.rs, lines 365-376):
requires the short-castle flag, the file-6 square not attacked, and
`validate_can_castle` against the rook square (file 1, the a-file rook). -/
def canCastleShortF (fuel : Nat) (b : Board) (king : Piece) : Bool :=
  match fuel with
  | 0 => false
  | fuel + 1 =>
    if ¬(b.state.getCastlingRightsFor king.color).shortCastle then false
    else if isAttackedF fuel b ⟨6, king.location.rankNumber⟩ (some king.color.getOpposite) then
      -- f1 / f8 is attacked
      false
    else validateCanCastle b king ⟨1, king.location.rankNumber⟩

/-- `KingMoveController::can_castle_long` (pieces.rs, lines 378-389):
requires the long-castle flag, the file-4 square not attacked, and
`validate_can_castle` against the rook square (file 1). -/
def canCastleLongF (fuel : Nat) (b : Board) (king : Piece) : Bool :=
  match fuel with
  | 0 => false
  | fuel + 1 =>
    if ¬(b.state.getCastlingRightsFor king.color).longCastle then false
    else if isAttackedF fuel b ⟨4, king.location.rankNumber⟩ (some king.color.getOpposite) then
      -- d1 / d8 is attacked
      false
    else validateCanCastle b king ⟨1, king.location.rankNumber⟩

end

/-- `Board::is_attacked` at the standard fuel. -/
def Board.isAttacked (b : Board) (square : Square) (color : Option Color) : Bool :=
  isAttackedF 64 b square color

/-- `Piece::is_move_valid` at the standard fuel. -/
def Piece.isMoveValid (p : Piece) (b : Board) (m : NewMove) : Bool :=
  isMoveValidF 64 b p m

/-- `Board::is_in_check`: that color's king square is attacked by the
opposite color. -/
def Board.isInCheck (b : Board) (color : Color) : Bool :=
  b.state.pieces.any (fun piece =>
    piece.pieceType = PieceType.king && piece.color = color &&
      b.isAttacked piece.location (some piece.color.getOpposite))

/-- Stands in for the value of an `unwrap()` on `board.last_move` at call
sites where the move has always just been recorded. -/
def dummyHistoryMove : HistoryMove :=
  ⟨Color.white, PieceType.pawn, ⟨0, 0⟩, ⟨0, 0⟩, false, Extra.none⟩

/-- `BoardState::get_castling_rights_mut_for` turned into a functional
update. -/
def BoardState.setCastlingRightsFor (s : BoardState) (color : Color) (rights : CastlingRights) : BoardState :=
  match color with
  | .white => { s with whiteCastlingRights := rights }
  | .black => { s with blackCastlingRights := rights }

/-- `PawnMoveController::after_move` (pieces.rs, lines 178-218): en-passant
bookkeeping, promotion (default Queen), and removal of an en-passant-captured
pawn.  The two `unwrap()`s cannot fail when called from
`make_move_if_valid`, which has just recorded `last_move` and placed the
moved piece at its destination. -/
def pawnAfterMove (b : Board) : Board :=
  let lastMove := b.lastMove.getD dummyHistoryMove
  let piece := (b.getPiece lastMove.toSq).getD (Piece.new lastMove.toSq Color.white PieceType.pawn)
  let pieceColor := piece.color
  -- Check if move was en passant
  let captureSquare : Option Square :=
    match b.state.enPassantSquare with
    | some enPassantSquare =>
      if enPassantSquare = lastMove.toSq then
        some ⟨lastMove.toSq.fileNumber, lastMove.fromSq.rankNumber⟩
      else none
    | none => none
  -- Check if move was a first move by 2 squares
  let firstMoveDestinationRank := wrap8 ((lastMove.fromSq.rankNumber : Int) + piece.getAdvanceDirection * 2)
  let newEnPassant : Option Square :=
    if firstMoveDestinationRank = lastMove.toSq.rankNumber then
      some (lastMove.fromSq.getRelative 0 piece.getAdvanceDirection)
    else none
  let b := { b with state := { b.state with enPassantSquare := newEnPassant } }
  -- Promotion
  let b :=
    if lastMove.toSq.rankNumber = 1 ∨ lastMove.toSq.rankNumber = 8 then
      let newPieceType :=
        match lastMove.extra with
        | Extra.promotion newType => newType
        | _ => PieceType.queen
      (b.removePiece lastMove.toSq).setPiece (Piece.new lastMove.toSq pieceColor newPieceType)
    else b
  match captureSquare with
  | some captureSquare =>
    let b := { b with lastMove := b.lastMove.map (fun (lm : HistoryMove) => { lm with capture := true }) }
    b.removePiece captureSquare
  | none => b

/-- `RookMoveController::after_move` (pieces.rs, lines 235-245): clear the
short-castle flag when the rook moved from file 8, the long-castle flag when
it moved from file 1 — the rank is not inspected. -/
def rookAfterMove (b : Board) : Board :=
  let lastMove := b.lastMove.getD dummyHistoryMove
  let b :=
    if lastMove.fromSq.fileNumber = 8 then
      let rights := { b.state.getCastlingRightsFor lastMove.pieceColor with shortCastle := false }
      { b with state := b.state.setCastlingRightsFor lastMove.pieceColor rights }
    else b
  if lastMove.fromSq.fileNumber = 1 then
    let rights := { b.state.getCastlingRightsFor lastMove.pieceColor with longCastle := false }
    { b with state := b.state.setCastlingRightsFor lastMove.pieceColor rights }
  else b

/-- `KingMoveController::after_move` (pieces.rs, lines 333-361): relocate the
rook on a castle (here a `+2` step is labelled short and a `-2` step long)
and unconditionally clear both castling flags for the mover. -/
def kingAfterMove (b : Board) : Board :=
  let lastMove := b.lastMove.getD dummyHistoryMove
  let rookFromTo : Option (Square × Square) :=
    if lastMove.toSq.fileNumber = wrap8 ((lastMove.fromSq.fileNumber : Int) + 2) then
      -- Short castle
      some (⟨8, lastMove.toSq.rankNumber⟩, ⟨6, lastMove.toSq.rankNumber⟩)
    else if lastMove.toSq.fileNumber = wrap8 ((lastMove.fromSq.fileNumber : Int) - 2) then
      -- Long castle
      some (⟨1, lastMove.toSq.rankNumber⟩, ⟨4, lastMove.toSq.rankNumber⟩)
    else none
  let b :=
    match rookFromTo with
    | some (rookFrom, rookTo) =>
      (b.removePiece rookFrom).setPiece (Piece.new rookTo lastMove.pieceColor PieceType.rook)
    | none => b
  { b with state := b.state.setCastlingRightsFor lastMove.pieceColor ⟨false, false⟩ }

/-- The `after_move` dispatch of `Piece::get_move_controller`; Knight, Bishop
and Queen have no side effect. -/
def afterMoveFor (t : PieceType) (b : Board) : Board :=
  match t with
  | .pawn => pawnAfterMove b
  | .rook => rookAfterMove b
  | .king => kingAfterMove b
  | .knight => b
  | .bishop => b
  | .queen => b

/-- `Board::make_move_if_valid` (board.rs, lines 439-492), with the `&mut
self` receiver threaded explicitly: the returned board is the receiver's
final value.  All three failure returns occur before any mutation. -/
def Board.makeMoveIfValid (b : Board) (m : NewMove) : Except MoveFailureReason Unit × Board :=
  match b.getPiece m.fromSq with
  | none => (Except.error MoveFailureReason.noPiece, b)
  | some piece =>
    -- Check if move was valid
    if ¬(piece.isMoveValid b m) then (Except.error MoveFailureReason.moveInvalid, b)
    else
      let pieceColor := piece.color
      let pieceType := piece.pieceType
      -- Check if this was a capture
      let captureCheck : Except MoveFailureReason Bool :=
        match b.getPiece m.toSq with
        | some capture =>
          if capture.color = pieceColor then Except.error MoveFailureReason.cannotCaptureOwnPiece
          else Except.ok true
        | none => Except.ok false
      match captureCheck with
      | Except.error e => (Except.error e, b)
      | Except.ok wasCapture =>
        -- Remove the piece from the old location and the captured piece if any
        let b := (b.removePiece m.fromSq).removePiece m.toSq
        -- Setup last move
        let b := { b with lastMove := some ⟨pieceColor, pieceType, m.fromSq, m.toSq, wasCapture, m.extra⟩ }
        -- Create the new piece at the target destination and call after_move
        let newPiece := Piece.new m.toSq pieceColor pieceType
        let b := b.setPiece newPiece
        let b := afterMoveFor newPiece.pieceType b
        -- Mark highlighted squares
        let b := { b with highlightedSquares := [m.fromSq, m.toSq] }
        (Except.ok (), b)

/-- `Board::recalculate_all_pieces_movements`. -/
def Board.recalculateAllPiecesMovements (b : Board) : Board :=
  { b with state := { b.state with pieces := b.state.pieces.map Piece.recalculateValidMoves } }

/-- `Board::get_valid_moves_for_piece` (board.rs, lines 375-399): for each
cached candidate, clone the board, attempt the move under a `MoveCheck`
probe, discard failures and outcomes leaving the mover's king in check, and
collect the recorded move (`last_move.unwrap()`, always present on success). -/
def Board.getValidMovesForPiece (b : Board) (piece : Piece) : List HistoryMove :=
  piece.validMoves.filterMap (fun validMove =>
    let attempt := b.makeMoveIfValid { fromSq := piece.location, toSq := validMove, extra := Extra.moveCheck }
    match attempt.1 with
    | Except.error _ => none
    | Except.ok _ => if attempt.2.isInCheck piece.color then none else attempt.2.lastMove)

/-- `Board::get_valid_moves_for`: union over that color's pieces. -/
def Board.getValidMovesFor (b : Board) (color : Color) : List HistoryMove :=
  (b.state.pieces.filter (fun piece => piece.color = color)).flatMap b.getValidMovesForPiece

/-- The entry for type `t` in `Board::get_pieces_count_by_type(color)`. -/
def Board.countPieces (b : Board) (color : Color) (t : PieceType) : Nat :=
  (b.state.pieces.filter (fun piece => piece.color = color && piece.pieceType = t)).length

/-- `Board::clear_board`. -/
def Board.clearBoard (b : Board) : Board :=
  { b with state := { b.state with pieces := [] } }

/-- `Board::setup_initial_pieces`. -/
def Board.setupInitialPieces (b : Board) (color : Color) : Board :=
  let rank := if color = Color.white then 1 else 8
  (((((((b.setPiece (Piece.new ⟨1, rank⟩ color .rook)).setPiece
    (Piece.new ⟨2, rank⟩ color .knight)).setPiece
    (Piece.new ⟨3, rank⟩ color .bishop)).setPiece
    (Piece.new ⟨4, rank⟩ color .queen)).setPiece
    (Piece.new ⟨5, rank⟩ color .king)).setPiece
    (Piece.new ⟨6, rank⟩ color .bishop)).setPiece
    (Piece.new ⟨7, rank⟩ color .knight)).setPiece
    (Piece.new ⟨8, rank⟩ color .rook)

/-- `Board::setup_initial_pawns`. -/
def Board.setupInitialPawns (b : Board) (color : Color) : Board :=
  let rank := if color = Color.white then 2 else 7
  (List.range 8).foldl (fun bd fi => bd.setPiece (Piece.new ⟨fi + 1, rank⟩ color .pawn)) b

/-- `Board::setup_default_board` (board.rs, lines 309-325). -/
def Board.setupDefaultBoard (b : Board) : Board :=
  let b := b.clearBoard
  let b := { b with state := { b.state with
      whiteCastlingRights := ⟨true, true⟩,
      blackCastlingRights := ⟨true, true⟩,
      enPassantSquare := none } }
  let b := { b with highlightedSquares := [], lastMove := none }
  (((b.setupInitialPieces .white).setupInitialPieces .black).setupInitialPawns
    .white).setupInitialPawns .black

/-- `Board::default` / `Board::new`. -/
def Board.new : Board :=
  ⟨[], ⟨⟨true, true⟩, ⟨true, true⟩, none, []⟩, none⟩

/-- `GameResult` (game.rs). -/
inductive GameResult where
  | ongoing
  | checkMate (c : Color)
  | resignation (c : Color)
  | outOfTime (c : Color)
  | stalemated
  | insufficientMaterial
  | threefoldRepetition
  | fiftyMoves
  | drawAgreed
deriving DecidableEq, Repr

/-- `GameResult::get_winner`. -/
def GameResult.getWinner : GameResult → Option Color
  | .ongoing | .stalemated | .insufficientMaterial | .threefoldRepetition | .fiftyMoves
  | .drawAgreed => none
  | .checkMate color | .resignation color | .outOfTime color => some color.getOpposite

/-- `GameState` (game.rs). -/
structure GameState where
  board : Board
  halfMoveClock : Nat
  currentTurn : Color
  drawOffers : List Color
  takebackOffers : List Color
  boardHash : Nat
deriving DecidableEq, Repr

/-- `Game` (game.rs).  `state_history` is a `Vec` used as a stack; it is
modelled with the most recently pushed state first. -/
structure Game where
  state : GameState
  stateHistory : List GameState
  result : Option GameResult
deriving DecidableEq, Repr

/-- `Game::reset`. -/
def Game.reset (g : Game) : Game :=
  { g with
    state := { g.state with
      board := g.state.board.setupDefaultBoard,
      halfMoveClock := 0,
      currentTurn := Color.white,
      drawOffers := [],
      takebackOffers := [] },
    stateHistory := [],
    result := none }

/-- `Game::default` / `Game::new`: a fresh board, then `reset`. -/
def Game.new : Game :=
  Game.reset ⟨⟨Board.new, 0, Color.white, [], [], 0⟩, [], none⟩

/-- `Game::takeback_move` (game.rs, lines 96-110): fail `GameEnded` if a
result is set; pop the history onto the current state and recalculate every
piece's candidate cache; fail `NoPreviousPositions` on empty history. -/
def Game.takebackMove (g : Game) : Except MoveFailureReason Unit × Game :=
  if g.result.isSome then (Except.error MoveFailureReason.gameEnded, g)
  else
    match g.stateHistory with
    | state :: rest =>
      let g := { g with state := state, stateHistory := rest }
      let g := { g with state := { g.state with
          board := g.state.board.recalculateAllPiecesMovements } }
      (Except.ok (), g)
    | [] => (Except.error MoveFailureReason.noPreviousPositions, g)

/-- `Game::draw`. -/
def Game.draw (g : Game) : Except MoveFailureReason GameResult × Game :=
  if g.result.isSome then (Except.error MoveFailureReason.gameEnded, g)
  else (Except.ok GameResult.drawAgreed, { g with result := some GameResult.drawAgreed })

/-- `Game::resign`. -/
def Game.resign (g : Game) (color : Color) : Except MoveFailureReason GameResult × Game :=
  if g.result.isSome then (Except.error MoveFailureReason.gameEnded, g)
  else (Except.ok (GameResult.resignation color), { g with result := some (GameResult.resignation color) })

/-- `Vec::dedup`: remove *consecutive* duplicate elements. -/
def dedupColors : List Color → List Color
  | [] => []
  | [x] => [x]
  | x :: y :: rest => if x = y then dedupColors (y :: rest) else x :: dedupColors (y :: rest)

/-- `Game::offer_draw` (game.rs, lines 194-207): push the color, dedup, and
execute the draw once the offer list reaches length 2. -/
def Game.offerDraw (g : Game) (color : Color) : Except MoveFailureReason GameResult × Game :=
  if g.result.isSome then (Except.error MoveFailureReason.gameEnded, g)
  else
    let g := { g with state := { g.state with
        drawOffers := dedupColors (g.state.drawOffers ++ [color]) } }
    if g.state.drawOffers.length = 2 then g.draw
    else (Except.ok GameResult.ongoing, g)

/-- `Game::offer_takeback` (game.rs, lines 209-223): push the color, dedup,
and execute the takeback once the offer list reaches length 2, propagating
any takeback failure. -/
def Game.offerTakeback (g : Game) (color : Color) : Except MoveFailureReason Bool × Game :=
  if g.result.isSome then (Except.error MoveFailureReason.gameEnded, g)
  else
    let g := { g with state := { g.state with
        takebackOffers := dedupColors (g.state.takebackOffers ++ [color]) } }
    if g.state.takebackOffers.length = 2 then
      match g.takebackMove with
      | (Except.error e, g) => (Except.error e, g)
      | (Except.ok _, g) => (Except.ok true, g)
    else (Except.ok false, g)

/-- `Game::validate_has_sufficient_material` (game.rs, lines 225-239). -/
def Game.validateHasSufficientMaterial (g : Game) (color : Color) : Bool :=
  let count := g.state.board.countPieces color
  -- there are rooks, queens or pawns, game is not drawn
  if count PieceType.rook ≠ 0 ∨ count PieceType.queen ≠ 0 ∨ count PieceType.pawn ≠ 0 then true
  -- 2 bishops, 3 knights or 1 bishop and 1 knight are enough to force a mate
  else if count PieceType.bishop ≥ 2 ∨ count PieceType.knight ≥ 3 then true
  else count PieceType.bishop ≥ 1 && count PieceType.knight ≥ 1

/-- `Game::check_for_insufficient_material`. -/
def Game.checkForInsufficientMaterial (g : Game) : Bool :=
  ¬(g.validateHasSufficientMaterial Color.white) && ¬(g.validateHasSufficientMaterial Color.black)

/-- `Game::check_for_threefold_repetition` (game.rs, lines 245-263): start the
count at 1 for the current position; for each historical state, skip it when
its stored hash differs from the current hash or its `BoardState` differs
from the current one, otherwise count it; report `count ≥ 3`. -/
def Game.checkForThreefoldRepetition (g : Game) : Bool :=
  let currentHash := g.state.board.state.getHash
  let positionsCount :=
    g.stateHistory.foldl (fun positionsCount previousState =>
      if previousState.boardHash ≠ currentHash then positionsCount
      else if ¬(boardStateEq g.state.board.state previousState.board.state) then positionsCount
      else positionsCount + 1) 1
  positionsCount ≥ 3

/-- `Game::make_move` (game.rs, lines 121-183), with the `&mut self` receiver
threaded explicitly. -/
def Game.makeMove (g : Game) (m : NewMove) : Except MoveFailureReason HistoryMove × Game :=
  if g.result.isSome then (Except.error MoveFailureReason.gameEnded, g)
  else
    -- Check if move is valid
    match g.state.board.getPiece m.fromSq with
    | none => (Except.error MoveFailureReason.noPiece, g)
    | some piece =>
      if ¬(piece.color = g.state.currentTurn) then (Except.error MoveFailureReason.notYourPiece, g)
      else
        let attempt := g.state.board.makeMoveIfValid m
        match attempt.1 with
        | Except.error e => (Except.error e, g)
        | Except.ok _ =>
          let newBoard := attempt.2
          if newBoard.isInCheck g.state.currentTurn then
            (Except.error MoveFailureReason.inCheckAfterTurn, g)
          else
            -- Clone this state
            let previousState := g.state
            -- Make a new state
            let g := { g with state := { g.state with
                board := newBoard,
                halfMoveClock := previousState.halfMoveClock,
                currentTurn := previousState.currentTurn.getOpposite,
                drawOffers := [],
                takebackOffers := [] } }
            -- Save the previous state to history
            let previousState := { previousState with
                boardHash := previousState.board.state.getHash }
            let g := { g with stateHistory := previousState :: g.stateHistory }
            -- Reset half-move counter if a pawn move or a capture was made
            let lastMove := newBoard.lastMove.getD dummyHistoryMove
            let g :=
              if lastMove.capture ∨ lastMove.pieceType = PieceType.pawn then
                { g with state := { g.state with halfMoveClock := 0 } }
              else g
            -- check for mate or draw
            let g :=
              if (g.state.board.getValidMovesFor g.state.currentTurn).isEmpty then
                -- current player has no moves: checkmate if in check, else stalemate
                if g.state.board.isInCheck g.state.currentTurn then
                  { g with result := some (GameResult.checkMate g.state.currentTurn) }
                else { g with result := some GameResult.stalemated }
              else if g.checkForInsufficientMaterial then
                { g with result := some GameResult.insufficientMaterial }
              else if g.checkForThreefoldRepetition then
                { g with result := some GameResult.threefoldRepetition }
              else if g.state.halfMoveClock ≥ 50 then
                { g with result := some GameResult.fiftyMoves }
              else g
            (Except.ok lastMove, g)

/-- The game in the standard opening position, as produced by `Game::new`. -/
def standardGame : Game := Game.new

/-! Concrete inputs and helper definitions used by the theorems below. -/

/-- The move E2-E4 (file 5 rank 2 to file 5 rank 4) with no extra tag, as
produced by `NewMove::from_str("e2e4")`. -/
def mE2E4 : NewMove := ⟨⟨5, 2⟩, ⟨5, 4⟩, Extra.none⟩

/-- All 64 valid squares. -/
def allSquares : List Square :=
  (List.range 8).flatMap (fun f => (List.range 8).map (fun r => ⟨f + 1, r + 1⟩))

/-- The move/takeback round trip at the standard opening position: if
`make_move` accepts the request, taking the move back must succeed and yield
a current `BoardState` equal (by the source's `BoardState` equality) to the
opening `BoardState`; requests `make_move` rejects are vacuously fine. -/
def openingRoundtripOk (m : NewMove) : Bool :=
  match (standardGame.makeMove m).1 with
  | Except.error _ => true
  | Except.ok _ =>
    match (standardGame.makeMove m).2.takebackMove with
    | (Except.ok _, g2) => boardStateEq g2.state.board.state standardGame.state.board.state
    | (Except.error _, _) => false

/-- A board where every spec-side condition for a white short castle holds:
king on e1, rooks on a1 and h1, black king on e8, full castling rights, all
squares between the kings' rank pieces empty and unattacked. -/
def castleBoard : Board :=
  (((Board.new.setPiece (Piece.new ⟨5, 1⟩ .white .king)).setPiece
    (Piece.new ⟨1, 1⟩ .white .rook)).setPiece
    (Piece.new ⟨8, 1⟩ .white .rook)).setPiece
    (Piece.new ⟨5, 8⟩ .black .king)

/-- The white short-castle request e1-g1. -/
def mE1G1 : NewMove := ⟨⟨5, 1⟩, ⟨7, 1⟩, Extra.none⟩

/-- A board with a white rook on h5 (file 8, rank 5 — not its home rank),
kings on e1/e8, and full castling rights. -/
def rookBoard : Board :=
  ((Board.new.setPiece (Piece.new ⟨8, 5⟩ .white .rook)).setPiece
    (Piece.new ⟨5, 1⟩ .white .king)).setPiece
    (Piece.new ⟨5, 8⟩ .black .king)

/-- The rook move h5-h6 on `rookBoard`. -/
def mH5H6 : NewMove := ⟨⟨8, 5⟩, ⟨8, 6⟩, Extra.none⟩

/-- The standard opening board with an extra white knight on e3 — the square
a pawn double-step from e2 skips over. -/
def blockedBoard : Board :=
  standardGame.state.board.setPiece (Piece.new ⟨5, 3⟩ .white .knight)

/-- A game that has ended by resignation. -/
def endedGame : Game := (Game.new.resign Color.white).2

/-- The starting rank of a pawn's two-square advance. -/
def pawnStartRank : Color → Nat
  | .white => 2
  | .black => 7

/-- The destination of a pawn's two-square advance from its starting rank. -/
def pawnTwoSquareDest (c : Color) (f : Nat) : Square :=
  ⟨f, match c with | .white => 4 | .black => 5⟩

/-- The takeback-offer trace: White offers a takeback, White plays e2-e4
(pushing the state that still records White's pending offer), then both
colors offer a takeback in the new position, consummating it. -/
def takebackTrace : Except MoveFailureReason Bool × Game :=
  let g1 := (standardGame.offerTakeback Color.white).2
  let g2 := (g1.makeMove mE2E4).2
  let g3 := (g2.offerTakeback Color.white).2
  g3.offerTakeback Color.black

/-- A historical game state with a pending takeback offer from White, used
to instantiate the amended takeback-consummation theorem. -/
def pendingOfferState : GameState :=
  ⟨Board.new, 0, Color.black, [], [Color.white], 0⟩

/-- A game whose current position has a pending takeback offer from White
and whose history records `pendingOfferState`. -/
def pendingOfferGame : Game :=
  ⟨⟨Board.new, 0, Color.white, [], [Color.white], 0⟩, [pendingOfferState], none⟩

/-- A move request from the empty square e3, used to exercise the `NoPiece`
failure path. -/
def mE3E4 : NewMove := ⟨⟨5, 3⟩, ⟨5, 4⟩, Extra.none⟩

/-! ## Helper lemmas shared by the claim theorems. -/

/-- The counting loop of `check_for_threefold_repetition` equals the starting
value plus the number of historical states matching the current hash and
`BoardState`. -/
theorem threefold_foldl_eq_countP (hash : Nat) (st : BoardState) :
    ∀ (l : List GameState) (n : Nat),
      l.foldl (fun positionsCount previousState =>
        if previousState.boardHash ≠ hash then positionsCount
        else if ¬(boardStateEq st previousState.board.state) then positionsCount
        else positionsCount + 1) n
        = n + l.countP (fun previousState =>
            decide (previousState.boardHash = hash) && boardStateEq st previousState.board.state)
  | [], n => by simp
  | p :: l, n => by
    simp only [List.foldl_cons, List.countP_cons]
    rw [threefold_foldl_eq_countP hash st l]
    by_cases h1 : p.boardHash = hash
    · by_cases h2 : (boardStateEq st p.board.state : Prop)
      · simp [h1, h2]
        omega
      · simp [h1, h2]
    · simp [h1]

/-- Reading back the castling rights just written for a color. -/
theorem getCastlingRightsFor_set_same (s : BoardState) (c : Color) (r : CastlingRights) :
    (s.setCastlingRightsFor c r).getCastlingRightsFor c = r := by
  cases c <;> rfl

/-- Writing one color's castling rights leaves the other color's rights
unchanged. -/
theorem getCastlingRightsFor_set_other (s : BoardState) (c c2 : Color) (r : CastlingRights)
    (h : ¬(c2 = c)) :
    (s.setCastlingRightsFor c r).getCastlingRightsFor c2 = s.getCastlingRightsFor c2 := by
  cases c <;> cases c2 <;> first | rfl | exact absurd rfl h

/-- The pawn's `after_move` never touches castling rights. -/
theorem pawnAfterMove_rights (b : Board) (c : Color) :
    (pawnAfterMove b).state.getCastlingRightsFor c = b.state.getCastlingRightsFor c := by
  unfold pawnAfterMove
  dsimp only
  (repeat' split) <;> cases c <;> rfl

/-- No piece's `after_move` ever sets a castling-rights flag to `true`. -/
theorem afterMoveFor_rights_monotone (t : PieceType) (b : Board) (c : Color) :
    (((afterMoveFor t b).state.getCastlingRightsFor c).shortCastle = true →
      (b.state.getCastlingRightsFor c).shortCastle = true) ∧
    (((afterMoveFor t b).state.getCastlingRightsFor c).longCastle = true →
      (b.state.getCastlingRightsFor c).longCastle = true) := by
  cases t
  case pawn =>
    simp only [afterMoveFor]
    rw [pawnAfterMove_rights]
    exact ⟨id, id⟩
  case knight => exact ⟨id, id⟩
  case bishop => exact ⟨id, id⟩
  case queen => exact ⟨id, id⟩
  case rook =>
    simp only [afterMoveFor]
    unfold rookAfterMove
    dsimp only
    cases hpc : (b.lastMove.getD dummyHistoryMove).pieceColor <;> cases c <;>
      (repeat' split) <;>
        simp_all [BoardState.setCastlingRightsFor, BoardState.getCastlingRightsFor, Board.setPiece,
          Board.removePiece]
  case king =>
    simp only [afterMoveFor]
    unfold kingAfterMove
    dsimp only
    cases hpc : (b.lastMove.getD dummyHistoryMove).pieceColor <;> cases c <;>
      (repeat' split) <;>
        simp_all [BoardState.setCastlingRightsFor, BoardState.getCastlingRightsFor, Board.setPiece,
          Board.removePiece]

/-- `make_move_if_valid` never sets a castling-rights flag to `true`: once a
flag is cleared, no later move restores it. -/
theorem makeMoveIfValid_rights_monotone (b : Board) (m : NewMove) (c : Color) :
    ((((b.makeMoveIfValid m).2.state.getCastlingRightsFor c).shortCastle = true →
      (b.state.getCastlingRightsFor c).shortCastle = true)) ∧
    ((((b.makeMoveIfValid m).2.state.getCastlingRightsFor c).longCastle = true →
      (b.state.getCastlingRightsFor c).longCastle = true)) := by
  cases c <;>
  · unfold Board.makeMoveIfValid
    split
    · exact ⟨id, id⟩
    · split
      · exact ⟨id, id⟩
      · dsimp only
        split
        · exact ⟨id, id⟩
        · dsimp only
          refine ⟨fun hs => ?_, fun hl => ?_⟩
          · have h2 := (afterMoveFor_rights_monotone _ _ _).1 hs
            exact h2
          · have h2 := (afterMoveFor_rights_monotone _ _ _).2 hl
            exact h2

/-- A committed rook move clears the mover's short-castle flag exactly when
it started on file 8 and the long-castle flag exactly when it started on
file 1 — regardless of rank — and leaves the opponent's rights unchanged. -/
theorem rook_move_rights_formula (b : Board) (m : NewMove) (p : Piece)
    (hp : b.getPiece m.fromSq = some p) (ht : p.pieceType = PieceType.rook)
    (hok : (b.makeMoveIfValid m).1 = Except.ok ()) :
    ((b.makeMoveIfValid m).2.state.getCastlingRightsFor p.color).shortCastle
        = ((b.state.getCastlingRightsFor p.color).shortCastle && !(decide (m.fromSq.fileNumber = 8))) ∧
    ((b.makeMoveIfValid m).2.state.getCastlingRightsFor p.color).longCastle
        = ((b.state.getCastlingRightsFor p.color).longCastle && !(decide (m.fromSq.fileNumber = 1))) ∧
    (b.makeMoveIfValid m).2.state.getCastlingRightsFor p.color.getOpposite
        = b.state.getCastlingRightsFor p.color.getOpposite := by
  unfold Board.makeMoveIfValid at hok ⊢
  simp only [hp] at hok ⊢
  by_cases hv : (p.isMoveValid b m : Prop)
  · simp only [hv, not_true, if_false] at hok ⊢
    have hT : (Piece.new m.toSq p.color p.pieceType).pieceType = PieceType.rook := ht
    cases hc : b.getPiece m.toSq with
    | none =>
      simp only [hc] at hok ⊢
      rw [hT]
      simp only [afterMoveFor]
      unfold rookAfterMove
      simp only [Option.getD_some]
      cases cpc : p.color <;>
        (repeat' split) <;>
          simp_all [BoardState.setCastlingRightsFor, BoardState.getCastlingRightsFor,
            Color.getOpposite, Board.setPiece, Board.removePiece]
    | some capture =>
      by_cases hcc : capture.color = p.color
      · simp [hc, hcc] at hok
      · simp only [hc, hcc, if_neg, if_false] at hok ⊢
        rw [hT]
        simp only [afterMoveFor]
        unfold rookAfterMove
        simp only [Option.getD_some]
        cases cpc : p.color <;>
          (repeat' split) <;>
            simp_all [BoardState.setCastlingRightsFor, BoardState.getCastlingRightsFor,
              Color.getOpposite, Board.setPiece, Board.removePiece]
  · simp [hv] at hok

/-! ## Claim theorems. -/

/-- Claim C1: the specification says a two-file lateral king step is accepted
as a castle exactly when the castling conditions hold; on this board every
spec-side condition for a white short castle holds (rights intact, rook on
h1, squares between king and rook empty, none of e1/f1/g1 attacked), yet the
code rejects E1-G1 with `MoveInvalid`, because the king's candidate-move
generation never includes two-file steps (and the castle validators
dispatched for two-file steps gate the h-side step on the long flag and the
a-file rook). -/
theorem castle_request_rejected_despite_spec_conditions :
    castleBoard.state.whiteCastlingRights.shortCastle = true ∧
    castleBoard.state.whiteCastlingRights.longCastle = true ∧
    castleBoard.getPiece ⟨6, 1⟩ = none ∧
    castleBoard.getPiece ⟨7, 1⟩ = none ∧
    castleBoard.getPiece ⟨8, 1⟩ = some (Piece.new ⟨8, 1⟩ .white .rook) ∧
    castleBoard.isAttacked ⟨5, 1⟩ (some Color.black) = false ∧
    castleBoard.isAttacked ⟨6, 1⟩ (some Color.black) = false ∧
    castleBoard.isAttacked ⟨7, 1⟩ (some Color.black) = false ∧
    castleBoard.makeMoveIfValid mE1G1 = (Except.error MoveFailureReason.moveInvalid, castleBoard) :=
  ⟨rfl, rfl, rfl, rfl, rfl, rfl, rfl, rfl, rfl⟩

/-- Claim C2: `make_move` never increments the half-move clock — it only
carries it forward or resets it to zero — so from any state with a zero
clock (as produced by `Game::new`) the clock stays zero and the `FiftyMoves`
result can never be produced, contrary to the fifty-move rule the
specification describes. -/
theorem make_move_never_increments_clock (g : Game) (m : NewMove) :
    (g.makeMove m).2.state.halfMoveClock ≤ g.state.halfMoveClock ∧
    (g.result = none → g.state.halfMoveClock = 0 →
      (g.makeMove m).2.result ≠ some GameResult.fiftyMoves) := by
  unfold Game.makeMove
  split
  · exact ⟨le_refl _, fun h _ => by simp [h]⟩
  · split
    · exact ⟨le_refl _, fun h _ => by simp [h]⟩
    · split
      · exact ⟨le_refl _, fun h _ => by simp [h]⟩
      · dsimp only
        split
        · exact ⟨le_refl _, fun h _ => by simp [h]⟩
        · split
          · exact ⟨le_refl _, fun h _ => by simp [h]⟩
          · dsimp only
            constructor
            · (repeat' split) <;> simp
            · intro hres h0
              (repeat' split) <;> simp_all

/-- Witness for claim C2 at the concrete opening move E2-E4. -/
theorem make_move_never_increments_clock_witness :
    (standardGame.makeMove mE2E4).2.state.halfMoveClock ≤ standardGame.state.halfMoveClock ∧
    (standardGame.makeMove mE2E4).2.result ≠ some GameResult.fiftyMoves :=
  ⟨(make_move_never_increments_clock standardGame mE2E4).1,
   (make_move_never_increments_clock standardGame mE2E4).2 rfl rfl⟩

/-- Claim C3: the specification says `find_path_to` returns "no path" for
squares not aligned on a rank, file, or diagonal, but the code's
misalignment guard compares the sign-reduced deltas (always of absolute
value 1 when nonzero) instead of the raw deltas, so it is never satisfied:
for the knight-offset pair a1/b3 the code returns `some []`, not `none`. -/
theorem findPathTo_unaligned_returns_some_empty :
    Square.findPathTo ⟨1, 1⟩ ⟨2, 3⟩ = some [] := by rfl

/-- Claim C4 (amended): a repeated takeback offer by the same color is a
no-op, and once both colors have offered the takeback executes — but the
takeback-offer set of the resulting state is the offer set stored in the
restored history entry (empty only when no offer was pending when that move
was played), not an unconditionally cleared set. -/
theorem offerTakeback_repeat_noop_and_consummation (g : Game) (c : Color) (s : GameState)
    (rest : List GameState) (hres : g.result = none) :
    (g.state.takebackOffers = [c] → g.offerTakeback c = (Except.ok false, g)) ∧
    (g.state.takebackOffers = [c.getOpposite] → g.stateHistory = s :: rest →
      (g.offerTakeback c).1 = Except.ok true ∧
      (g.offerTakeback c).2.state.takebackOffers = s.takebackOffers) := by
  obtain ⟨⟨board, clock, turn, dOff, tOff, hash⟩, hist, res⟩ := g
  dsimp only at hres
  subst hres
  constructor
  · intro hoff
    dsimp only at hoff
    subst hoff
    unfold Game.offerTakeback
    simp [dedupColors]
  · intro hoff hhist
    dsimp only at hoff hhist
    subst hoff
    subst hhist
    unfold Game.offerTakeback Game.takebackMove
    cases c <;> simp [dedupColors, Color.getOpposite]

/-- Witness for claim C4: consummating the takeback on a game whose restored
history entry still records a pending offer from White leaves that offer in
place. -/
theorem offerTakeback_repeat_noop_and_consummation_witness :
    (pendingOfferGame.offerTakeback Color.black).1 = Except.ok true ∧
    (pendingOfferGame.offerTakeback Color.black).2.state.takebackOffers = [Color.white] :=
  (offerTakeback_repeat_noop_and_consummation pendingOfferGame Color.black pendingOfferState []
    rfl).2 rfl rfl

/-- Counterexample for claim C4 as stated: in a real trace from the opening
(White offers a takeback, plays E2-E4, then both colors offer a takeback),
the consummated takeback leaves the restored state's takeback-offer set
equal to `[White]`, not empty. -/
theorem takeback_offers_not_cleared_on_consummation :
    (takebackTrace.1, takebackTrace.2.state.takebackOffers) = (Except.ok true, [Color.white]) := by
  rfl

/-- Claim C5 (amended): a committed rook move clears the mover's short flag
exactly when the rook moved from file 8 and the long flag exactly when it
moved from file 1, *regardless of rank* (the code never inspects the rank);
the opponent's rights are untouched, and no move ever restores a cleared
flag. -/
theorem rook_after_move_castling_rights :
    (∀ (b : Board) (m : NewMove) (p : Piece),
      b.getPiece m.fromSq = some p → p.pieceType = PieceType.rook →
      (b.makeMoveIfValid m).1 = Except.ok () →
      ((b.makeMoveIfValid m).2.state.getCastlingRightsFor p.color).shortCastle
          = ((b.state.getCastlingRightsFor p.color).shortCastle && !(decide (m.fromSq.fileNumber = 8))) ∧
      ((b.makeMoveIfValid m).2.state.getCastlingRightsFor p.color).longCastle
          = ((b.state.getCastlingRightsFor p.color).longCastle && !(decide (m.fromSq.fileNumber = 1))) ∧
      (b.makeMoveIfValid m).2.state.getCastlingRightsFor p.color.getOpposite
          = b.state.getCastlingRightsFor p.color.getOpposite) ∧
    (∀ (b : Board) (m : NewMove) (c : Color),
      ((((b.makeMoveIfValid m).2.state.getCastlingRightsFor c).shortCastle = true →
        (b.state.getCastlingRightsFor c).shortCastle = true)) ∧
      ((((b.makeMoveIfValid m).2.state.getCastlingRightsFor c).longCastle = true →
        (b.state.getCastlingRightsFor c).longCastle = true))) :=
  ⟨rook_move_rights_formula, makeMoveIfValid_rights_monotone⟩

/-- Witness for claim C5 at the concrete rook move h5-h6 on `rookBoard`. -/
theorem rook_after_move_castling_rights_witness :
    (((rookBoard.makeMoveIfValid mH5H6).2.state.getCastlingRightsFor Color.white).shortCastle
        = ((rookBoard.state.getCastlingRightsFor Color.white).shortCastle &&
            !(decide (mH5H6.fromSq.fileNumber = 8))) ∧
      ((rookBoard.makeMoveIfValid mH5H6).2.state.getCastlingRightsFor Color.white).longCastle
        = ((rookBoard.state.getCastlingRightsFor Color.white).longCastle &&
            !(decide (mH5H6.fromSq.fileNumber = 1))) ∧
      (rookBoard.makeMoveIfValid mH5H6).2.state.getCastlingRightsFor Color.black
        = rookBoard.state.getCastlingRightsFor Color.black) ∧
    (((rookBoard.makeMoveIfValid mH5H6).2.state.getCastlingRightsFor Color.black).shortCastle = true →
      (rookBoard.state.getCastlingRightsFor Color.black).shortCastle = true) :=
  ⟨rook_after_move_castling_rights.1 rookBoard mH5H6 (Piece.new ⟨8, 5⟩ .white .rook) rfl rfl rfl,
   (rook_after_move_castling_rights.2 rookBoard mH5H6 Color.black).1⟩

/-- Counterexample for claim C5 as stated: the white rook on h5 — file 8 but
*not* its home rank — moves to h6, and the code clears White's short-castle
flag anyway, where the claim says rights must not change. -/
theorem rook_off_home_rank_clears_short_castle :
    rookBoard.state.whiteCastlingRights.shortCastle = true ∧
    (rookBoard.makeMoveIfValid mH5H6).1 = Except.ok () ∧
    ((rookBoard.makeMoveIfValid mH5H6).2.state.whiteCastlingRights).shortCastle = false :=
  ⟨rfl, rfl, rfl⟩

/-- Claim C6: whenever `make_move_if_valid` returns a failure (`NoPiece`,
`MoveInvalid`, or `CannotCaptureOwnPiece`), the board — placement, rights,
en-passant target, highlighted squares, and last-move record — is exactly
unchanged. -/
theorem makeMoveIfValid_failure_preserves_board (b : Board) (m : NewMove) (r : MoveFailureReason)
    (h : (b.makeMoveIfValid m).1 = Except.error r) : (b.makeMoveIfValid m).2 = b := by
  unfold Board.makeMoveIfValid at h ⊢
  cases hp : b.getPiece m.fromSq with
  | none => simp [hp]
  | some piece =>
    simp only [hp] at h ⊢
    by_cases hv : (piece.isMoveValid b m : Prop)
    · simp only [hv, not_true, if_false] at h ⊢
      cases hc : b.getPiece m.toSq with
      | none => simp [hc] at h
      | some capture =>
        by_cases hcc : capture.color = piece.color
        · simp [hc, hcc]
        · simp [hc, hcc] at h
    · simp [hv]

/-- Witness for claim C6 at the concrete failing move from the empty square
e3 on the opening board. -/
theorem makeMoveIfValid_failure_preserves_board_witness :
    (standardGame.state.board.makeMoveIfValid mE3E4).2 = standardGame.state.board :=
  makeMoveIfValid_failure_preserves_board standardGame.state.board mE3E4
    MoveFailureReason.noPiece rfl

/-- Claim C7: `check_for_threefold_repetition` returns `true` exactly when 1
(for the current position) plus the number of historical states whose stored
hash equals the current board state's hash and whose full `BoardState`
equals the current one is at least 3. -/
theorem checkForThreefoldRepetition_iff_count (g : Game) :
    g.checkForThreefoldRepetition = true ↔
      3 ≤ 1 + g.stateHistory.countP (fun previousState =>
        decide (previousState.boardHash = g.state.board.state.getHash) &&
          boardStateEq g.state.board.state previousState.board.state) := by
  unfold Game.checkForThreefoldRepetition
  dsimp only
  rw [threefold_foldl_eq_countP]
  simp

/-- Claim C8: every from/to request that `make_move` accepts in the standard
opening position round-trips — the takeback succeeds and restores a
`BoardState` equal (by the source's `BoardState` equality) to the opening
one. -/
theorem opening_move_takeback_roundtrip :
    ∀ f ∈ allSquares, ∀ t ∈ allSquares, openingRoundtripOk ⟨f, t, Extra.none⟩ = true := by
  have h : (allSquares.all fun f => allSquares.all fun t =>
      openingRoundtripOk ⟨f, t, Extra.none⟩) = true := by decide
  intro f hf t ht
  exact List.all_eq_true.mp (List.all_eq_true.mp h f hf) t ht

/-- Witness for claim C8 at the concrete opening move E2-E4. -/
theorem opening_move_takeback_roundtrip_witness : openingRoundtripOk mE2E4 = true :=
  opening_move_takeback_roundtrip ⟨5, 2⟩ (by decide) ⟨5, 4⟩ (by decide)

/-- Claim C9: once a game's result is set, each mutating operation —
`make_move`, `resign`, `draw`, `offer_draw`, `offer_takeback`,
`takeback_move` — fails with `GameEnded` and leaves the game (state, history
and result) unchanged. -/
theorem terminal_result_freezes_game (g : Game) (res : GameResult) (m : NewMove) (c : Color)
    (h : g.result = some res) :
    g.makeMove m = (Except.error MoveFailureReason.gameEnded, g) ∧
    g.resign c = (Except.error MoveFailureReason.gameEnded, g) ∧
    g.draw = (Except.error MoveFailureReason.gameEnded, g) ∧
    g.offerDraw c = (Except.error MoveFailureReason.gameEnded, g) ∧
    g.offerTakeback c = (Except.error MoveFailureReason.gameEnded, g) ∧
    g.takebackMove = (Except.error MoveFailureReason.gameEnded, g) := by
  have hs : g.result.isSome = true := by simp [h]
  unfold Game.makeMove Game.resign Game.draw Game.offerDraw Game.offerTakeback Game.takebackMove
  simp [hs]

/-- Witness for claim C9 at a concrete resigned game. -/
theorem terminal_result_freezes_game_witness :
    endedGame.makeMove mE2E4 = (Except.error MoveFailureReason.gameEnded, endedGame) ∧
    endedGame.resign Color.black = (Except.error MoveFailureReason.gameEnded, endedGame) ∧
    endedGame.draw = (Except.error MoveFailureReason.gameEnded, endedGame) ∧
    endedGame.offerDraw Color.black = (Except.error MoveFailureReason.gameEnded, endedGame) ∧
    endedGame.offerTakeback Color.black = (Except.error MoveFailureReason.gameEnded, endedGame) ∧
    endedGame.takebackMove = (Except.error MoveFailureReason.gameEnded, endedGame) :=
  terminal_result_freezes_game endedGame (GameResult.resignation Color.white) mE2E4 Color.black rfl

/-- Claim C10: a pawn on its two-square starting rank may always make the
two-square straight advance when the destination square is empty — the
skipped intermediate square is never examined, for any board contents. -/
theorem pawn_double_step_ignores_skipped_square (b : Board) (c : Color) (e : Extra) (f : Nat)
    (hf : f ∈ [1, 2, 3, 4, 5, 6, 7, 8])
    (hempty : b.getPiece (pawnTwoSquareDest c f) = none) :
    (Piece.new ⟨f, pawnStartRank c⟩ c PieceType.pawn).isMoveValid b
      ⟨⟨f, pawnStartRank c⟩, pawnTwoSquareDest c f, e⟩ = true := by
  cases c <;> fin_cases hf <;>
    · simp only [pawnTwoSquareDest, pawnStartRank] at hempty ⊢
      simp [Piece.isMoveValid, isMoveValidF, checkIfMoveValidF, pawnCheckIfMoveValid, hempty,
        Piece.new, Piece.recalculateValidMoves, candidatesFor, pawnCandidates, Square.getRelative,
        wrap8, Square.isValid, pawnPromotionGuard]
      decide

/-- Witness for claim C10: the two-square advance E2-E4 validates on a board
whose skipped square e3 is occupied by a knight. -/
theorem pawn_double_step_ignores_skipped_square_witness :
    blockedBoard.getPiece ⟨5, 3⟩ = some (Piece.new ⟨5, 3⟩ Color.white PieceType.knight) ∧
    (Piece.new ⟨5, pawnStartRank Color.white⟩ Color.white PieceType.pawn).isMoveValid blockedBoard
      ⟨⟨5, pawnStartRank Color.white⟩, pawnTwoSquareDest Color.white 5, Extra.none⟩ = true :=
  ⟨rfl, pawn_double_step_ignores_skipped_square blockedBoard Color.white Extra.none 5
    (by decide) rfl⟩

end ChessRs
